import Mathlib

/-!
Verification development for the agentic-wallet rate-protection and
transaction-authorization core.

The TypeScript sources are shallowly embedded as executable Lean
definitions:

- JavaScript numbers are modelled as rationals where fractional
  arithmetic occurs (rates, weighted averages) and as integers where the
  program only ever handles integral values (millisecond timestamps,
  basis points, bigint balances).
- JavaScript Map objects are modelled as association lists with the
  lookup, set and delete operations used by the code.
- Wall-clock reads (Date.now) are passed in explicitly as a parameter
  named now or nowMs.
- Methods that throw are modelled as functions returning Except, paired
  with the post-call state where the source mutates state.
-/

namespace AgenticWallet

/-- JavaScript Math.round: round half toward positive infinity. -/
def jsRound (q : ℚ) : ℤ := ⌊q + 1/2⌋

/-- The four supported yield protocols, the values of YieldProtocol.id
constructed in the YieldMonitor constructor. The spec refers to a
protocol as a source. -/
inductive ProtocolId where
  | aave
  | compound
  | morpho
  | moonwell
  deriving DecidableEq, Repr

/-- Origin tag recorded on a rate history entry. The spec calls onchain
the primary origin and defillama the fallback origin. -/
inductive RateSource where
  | onchain
  | defillama
  deriving DecidableEq, Repr

/-- RateEntry from rate-history: one observed rate sample. -/
structure RateEntry where
  protocolId : ProtocolId
  apy : ℚ
  timestamp : ℤ
  source : RateSource
  deriving DecidableEq, Repr

/-- Association-list lookup, modelling JavaScript Map.get. -/
def alookup {κ α : Type} [DecidableEq κ] (k : κ) : List (κ × α) → Option α
  | [] => none
  | p :: rest => if p.1 = k then some p.2 else alookup k rest

/-- Removal of a key, modelling JavaScript Map.delete. -/
def aerase {κ α : Type} [DecidableEq κ] (k : κ) : List (κ × α) → List (κ × α)
  | [] => []
  | p :: rest => if p.1 = k then aerase k rest else p :: aerase k rest

/-- Insertion or replacement of a binding, modelling JavaScript Map.set
up to iteration order (none of the verified claims depends on the order
in which Map entries are iterated). -/
def aset {κ α : Type} [DecidableEq κ] (k : κ) (v : α) (l : List (κ × α)) : List (κ × α) :=
  (k, v) :: aerase k l

/-- DEFAULT_HISTORY_WINDOW_MS from rate-history (24 hours). -/
def DEFAULT_HISTORY_WINDOW_MS : ℤ := 24 * 60 * 60 * 1000

/-- MAX_ENTRIES_PER_PROTOCOL from rate-history: hard cap on retained
samples per protocol. -/
def MAX_ENTRIES_PER_PROTOCOL : ℕ := 1000

/-- RATE_VELOCITY_THRESHOLD from rate-history: a 50 percent change is
suspicious. -/
def RATE_VELOCITY_THRESHOLD : ℚ := 1/2

/-- RATE_VELOCITY_WINDOW_MS from rate-history: 1 hour velocity window. -/
def RATE_VELOCITY_WINDOW_MS : ℤ := 60 * 60 * 1000

/-- The RateHistory store: per-protocol entry lists plus the retention
window fixed at construction. -/
structure RateHistory where
  history : List (ProtocolId × List RateEntry)
  windowMs : ℤ
  deriving DecidableEq, Repr

/-- RateHistory.record: append the entry to its protocol list, prune
entries older than the retention window, then cap the list length at
MAX_ENTRIES_PER_PROTOCOL keeping the latest entries. now is Date.now()
at call time. -/
def RateHistory.record (h : RateHistory) (now : ℤ) (e : RateEntry) : RateHistory :=
  let entries := (alookup e.protocolId h.history).getD []
  let appended := entries ++ [e]
  let cutoff := now - h.windowMs
  let pruned := appended.filter (fun x => decide (cutoff ≤ x.timestamp))
  let limited := if MAX_ENTRIES_PER_PROTOCOL < pruned.length
    then pruned.drop (pruned.length - MAX_ENTRIES_PER_PROTOCOL) else pruned
  { h with history := aset e.protocolId limited h.history }

/-- RateHistory.getEntries: entries of a protocol with timestamp at or
after now minus the window (the stored retention window when none is
supplied). -/
def RateHistory.getEntries (h : RateHistory) (now : ℤ) (pid : ProtocolId)
    (windowMs : Option ℤ) : List RateEntry :=
  let entries := (alookup pid h.history).getD []
  let cutoff := now - windowMs.getD h.windowMs
  entries.filter (fun e => decide (cutoff ≤ e.timestamp))

/-- Stable insertion of an entry into a timestamp-sorted list. -/
def insertByTs (e : RateEntry) : List RateEntry → List RateEntry
  | [] => [e]
  | x :: xs => if e.timestamp ≤ x.timestamp then e :: x :: xs else x :: insertByTs e xs

/-- Stable sort by ascending timestamp, modelling the JavaScript
Array.sort comparator on timestamps used by getTWAP and
detectAnomalies. -/
def sortByTs (l : List RateEntry) : List RateEntry := l.foldr insertByTs []

/-- TWAPResult from rate-history. -/
structure TWAPResult where
  twap : ℚ
  sampleCount : ℕ
  oldestSample : ℤ
  newestSample : ℤ
  deriving DecidableEq, Repr

/-- The adjacent-pair loop of getTWAP: accumulated (weightedSum,
totalWeight), each pair contributing the earlier rate times the
timestamp gap. -/
def pairWeights : List RateEntry → ℚ × ℚ
  | x :: y :: rest =>
    let acc := pairWeights (y :: rest)
    (acc.1 + x.apy * (((y.timestamp - x.timestamp : ℤ) : ℚ)),
     acc.2 + (((y.timestamp - x.timestamp : ℤ) : ℚ)))
  | _ => (0, 0)

/-- RateHistory.getTWAP: time-weighted average of the entries inside the
requested window. Call sites pass whole hours, so the window argument is
integral. -/
def RateHistory.getTWAP (h : RateHistory) (now : ℤ) (pid : ProtocolId)
    (windowHours : ℤ) : Option TWAPResult :=
  let windowMs := windowHours * (60 * 60 * 1000)
  match h.getEntries now pid (some windowMs) with
  | [] => none
  | [e] => some ⟨e.apy, 1, e.timestamp, e.timestamp⟩
  | e1 :: e2 :: rest =>
    let sorted := sortByTs (e1 :: e2 :: rest)
    let pw := pairWeights sorted
    let lastEntry := sorted.getLast?.getD e1
    let headEntry := sorted.head?.getD e1
    let timeSinceLast : ℤ := min (now - lastEntry.timestamp) (60 * 60 * 1000)
    let weightedSum := pw.1 + lastEntry.apy * ((timeSinceLast : ℚ))
    let totalWeight := pw.2 + ((timeSinceLast : ℚ))
    let twap := if 0 < totalWeight then weightedSum / totalWeight else lastEntry.apy
    some ⟨twap, sorted.length, headEntry.timestamp, lastEntry.timestamp⟩

/-- Anomaly reasons produced by detectAnomalies, named after the reason
strings in the source. -/
inductive AnomalyReason where
  | insufficient_data
  | high_rate_velocity
  | twap_deviation
  deriving DecidableEq, Repr

/-- Anomaly severities, named after the severity strings in the source. -/
inductive Severity where
  | low
  | medium
  | high
  deriving DecidableEq, Repr

/-- The details payload of a RateAnomaly. -/
structure AnomalyDetails where
  currentRate : ℚ
  previousRate : ℚ
  changePercent : ℚ
  timeWindowMs : ℤ
  deriving DecidableEq, Repr

/-- RateAnomaly from rate-history. -/
structure RateAnomaly where
  suspicious : Bool
  reason : Option AnomalyReason
  severity : Option Severity
  details : Option AnomalyDetails
  deriving DecidableEq, Repr

/-- RateHistory.detectAnomalies: with fewer than two samples in the
velocity window the verdict is insufficient data; otherwise the velocity
check runs first and short-circuits, and the TWAP deviation check runs
only when velocity did not flag. -/
def RateHistory.detectAnomalies (h : RateHistory) (now : ℤ) (pid : ProtocolId)
    (currentRate : Option ℚ) : RateAnomaly :=
  let entries := h.getEntries now pid (some RATE_VELOCITY_WINDOW_MS)
  if entries.length < 2 then
    ⟨false, some AnomalyReason.insufficient_data, some Severity.low, none⟩
  else
    let sorted := sortByTs entries
    let latest := currentRate.getD (((sorted.getLast?).map RateEntry.apy).getD 0)
    let oldest := ((sorted.head?).map RateEntry.apy).getD 0
    let changePercent := |latest - oldest| / oldest
    if 0 < oldest ∧ RATE_VELOCITY_THRESHOLD < changePercent then
      ⟨true, some AnomalyReason.high_rate_velocity,
        some (if 1 < changePercent then Severity.high else Severity.medium),
        some ⟨latest, oldest, changePercent, RATE_VELOCITY_WINDOW_MS⟩⟩
    else
      match h.getTWAP now pid 1 with
      | some t =>
        let deviation := |latest - t.twap| / t.twap
        if 0 < t.twap ∧ 1/5 < deviation then
          ⟨true, some AnomalyReason.twap_deviation,
            some (if 1/2 < deviation then Severity.high else Severity.medium),
            some ⟨latest, t.twap, deviation, 60 * 60 * 1000⟩⟩
        else ⟨false, none, none, none⟩
      | none => ⟨false, none, none, none⟩

/-- RateHistory.getLatestRate: the most recently recorded entry of a
protocol. -/
def RateHistory.getLatestRate (h : RateHistory) (pid : ProtocolId) : Option RateEntry :=
  ((alookup pid h.history).getD []).getLast?

/-- ProtocolSnapshot as consumed by the yield decision: protocol, rate
and held balance (USDC smallest units, a bigint in the source). The spec
calls this a YieldSnapshot. -/
structure ProtocolSnapshot where
  protocolId : ProtocolId
  apyPercent : ℚ
  balance : ℤ
  deriving DecidableEq, Repr

/-- YIELD_CONFIG.MIN_APY_DIFFERENTIAL_BPS from config: minimum APY
differential, in basis points, required to justify a move. -/
def MIN_APY_DIFFERENTIAL_BPS : ℤ := 50

/-- Rejection reasons of compareYields, named after the reason strings in
the source. The spec writes source where the code writes protocol, so
its already_in_best_source and target_source_anomaly_detected name the
already_in_best_protocol and target_protocol_anomaly_detected strings. -/
inductive RejectReason where
  | no_funds_to_move
  | already_in_best_protocol
  | apy_differential_below_threshold
  | target_protocol_anomaly_detected
  deriving DecidableEq, Repr

/-- The Array.reduce in compareYields selecting the snapshot with the
highest rate (first such snapshot on ties, since the reducer only
replaces on strict improvement). The snapshot list of the monitor is
never empty (there are four protocols), so it is passed as head plus
tail. -/
def bestSnapshot (first : ProtocolSnapshot) (rest : List ProtocolSnapshot) : ProtocolSnapshot :=
  rest.foldl (fun best current => if best.apyPercent < current.apyPercent then current else best) first

/-- The decision part of a ProtectedYieldComparison. -/
structure RebalanceDecision where
  shouldRebalance : Bool
  rejectReason : Option RejectReason
  apyDifferentialBps : ℤ
  bestProtocol : ProtocolSnapshot
  currentProtocol : Option ProtocolSnapshot
  deriving DecidableEq, Repr

/-- The decision core of YieldMonitor.compareYields, operating on the
effective (possibly TWAP-replaced) snapshots and the set of protocol ids
holding a suspicious anomaly verdict for this cycle. -/
def decideRebalance (first : ProtocolSnapshot) (rest : List ProtocolSnapshot)
    (anomalous : List ProtocolId) : RebalanceDecision :=
  let best := bestSnapshot first rest
  let current := (first :: rest).find? (fun s => decide (0 < s.balance))
  let currentApy := (current.map ProtocolSnapshot.apyPercent).getD 0
  let diffBps := jsRound ((best.apyPercent - currentApy) * 10000)
  match current with
  | none => ⟨false, some RejectReason.no_funds_to_move, diffBps, best, none⟩
  | some c =>
    if c.protocolId = best.protocolId then
      ⟨false, some RejectReason.already_in_best_protocol, diffBps, best, some c⟩
    else if diffBps < MIN_APY_DIFFERENTIAL_BPS then
      ⟨false, some RejectReason.apy_differential_below_threshold, diffBps, best, some c⟩
    else if best.protocolId ∈ anomalous then
      ⟨false, some RejectReason.target_protocol_anomaly_detected, diffBps, best, some c⟩
    else
      ⟨true, none, diffBps, best, some c⟩

/-- Per-protocol inputs of one getSnapshots cycle: the outcome of the
concurrent primary read (rate and balance when both on-chain calls
settle fulfilled), and the outcome of the balance re-read attempted in
the fallback branch (none when that read throws). -/
structure ProtocolInput where
  protocolId : ProtocolId
  primary : Option (ℚ × ℤ)
  balanceRetry : Option ℤ
  deriving DecidableEq, Repr

/-- Aggregate data source reported by getSnapshots, named after the
source strings. The spec calls onchain primary and defillama fallback. -/
inductive DataSource where
  | onchain
  | defillama
  | mixed
  deriving DecidableEq, Repr

/-- The DeFiLlama fallback rate map: none models a failed or disabled
fetch, otherwise a mapping from protocol id to rate. -/
def dlGet (dl : Option (List (ProtocolId × ℚ))) (pid : ProtocolId) : Option ℚ :=
  dl.bind (fun m => alookup pid m)

/-- Accumulator of the getSnapshots loop. -/
structure AggAcc where
  snapshots : List ProtocolSnapshot
  onchainCount : ℕ
  defillamaCount : ℕ
  hist : RateHistory
  deriving Repr

/-- The result-processing loop of getSnapshots: primary result when the
on-chain read settled fulfilled (recorded to history), else the
DeFiLlama rate with the re-read balance defaulting to zero (recorded to
history), else the last known rate from history with balance zero. -/
def getSnapshotsAux (now : ℤ) (dl : Option (List (ProtocolId × ℚ))) :
    List ProtocolInput → RateHistory → AggAcc
  | [], h => ⟨[], 0, 0, h⟩
  | inp :: rest, h =>
    match inp.primary with
    | some pr =>
      let h1 := h.record now ⟨inp.protocolId, pr.1, now, RateSource.onchain⟩
      let r := getSnapshotsAux now dl rest h1
      ⟨⟨inp.protocolId, pr.1, pr.2⟩ :: r.snapshots, r.onchainCount + 1, r.defillamaCount, r.hist⟩
    | none =>
      match dlGet dl inp.protocolId with
      | some apy =>
        let bal := inp.balanceRetry.getD 0
        let h1 := h.record now ⟨inp.protocolId, apy, now, RateSource.defillama⟩
        let r := getSnapshotsAux now dl rest h1
        ⟨⟨inp.protocolId, apy, bal⟩ :: r.snapshots, r.onchainCount, r.defillamaCount + 1, r.hist⟩
      | none =>
        let lastRate := h.getLatestRate inp.protocolId
        let r := getSnapshotsAux now dl rest h
        ⟨⟨inp.protocolId, (lastRate.map RateEntry.apy).getD 0, 0⟩ :: r.snapshots,
          r.onchainCount, r.defillamaCount, r.hist⟩

/-- The dataSource computation at the end of getSnapshots. -/
def dataSourceOf (onchainCount defillamaCount : ℕ) : DataSource :=
  if defillamaCount = 0 then DataSource.onchain
  else if onchainCount = 0 then DataSource.defillama
  else DataSource.mixed

/-- Result of getSnapshots: the snapshot list, the aggregate data source
and the updated rate history. -/
structure SnapshotsResult where
  snapshots : List ProtocolSnapshot
  dataSource : DataSource
  finalHistory : RateHistory
  deriving Repr

/-- YieldMonitor.getSnapshots for one cycle. -/
def getSnapshots (now : ℤ) (h : RateHistory) (inputs : List ProtocolInput)
    (dl : Option (List (ProtocolId × ℚ))) : SnapshotsResult :=
  let r := getSnapshotsAux now dl inputs h
  ⟨r.snapshots, dataSourceOf r.onchainCount r.defillamaCount, r.hist⟩

/-- Session key configuration: unix-second expiry and USDC spend limit. -/
structure SessionKeyConfig where
  validUntil : ℤ
  spendLimit : ℤ
  deriving DecidableEq, Repr

/-- EncryptedSessionKey: the stored, encrypted form of a session key.
Addresses and the uninterpreted base64 ciphertext, nonce and authentication tag
are modelled as naturals. -/
structure EncryptedSessionKey where
  address : ℕ
  encryptedPrivateKey : ℕ
  iv : ℕ
  authTag : ℕ
  config : SessionKeyConfig
  deriving DecidableEq, Repr

/-- DecryptedSessionKey: the transient plaintext form returned by
decryptForSigning. -/
structure DecryptedSessionKey where
  address : ℕ
  privateKey : ℕ
  config : SessionKeyConfig
  deriving DecidableEq, Repr

/-- Failures of the session key manager. -/
inductive SessionKeyErr where
  | notFound
  | expired
  deriving DecidableEq, Repr

/-- SecureSessionKeyManager state: the map of encrypted keys by owner
address. -/
structure SecureSessionKeyManager where
  encryptedKeys : List (ℕ × EncryptedSessionKey)
  deriving DecidableEq, Repr

/-- SecureSessionKeyManager.decryptForSigning. nowMs is Date.now() in
milliseconds; the expiry guard in the source is Date.now() / 1000 >
validUntil over exact real division, i.e. nowMs > 1000 * validUntil. dec
abstracts the private AES-256-GCM decryption under the master key,
taking ciphertext, iv and authTag to the plaintext key. -/
def decryptForSigning (dec : ℕ → ℕ → ℕ → ℕ) (m : SecureSessionKeyManager)
    (nowMs : ℤ) (address : ℕ) : Except SessionKeyErr DecryptedSessionKey :=
  match alookup address m.encryptedKeys with
  | none => Except.error SessionKeyErr.notFound
  | some k =>
    if 1000 * k.config.validUntil < nowMs then
      Except.error SessionKeyErr.expired
    else
      Except.ok ⟨k.address, dec k.encryptedPrivateKey k.iv k.authTag, k.config⟩

/-- SecureSessionKeyManager.cleanupExpired: removes every key with
validUntil ≤ Date.now() / 1000, i.e. 1000 * validUntil ≤ nowMs, and
returns how many were removed. -/
def cleanupExpiredKeys (m : SecureSessionKeyManager) (nowMs : ℤ) :
    SecureSessionKeyManager × ℕ :=
  let removed := m.encryptedKeys.filter (fun p => decide (1000 * p.2.config.validUntil ≤ nowMs))
  let kept := m.encryptedKeys.filter (fun p => decide (nowMs < 1000 * p.2.config.validUntil))
  (⟨kept⟩, removed.length)

/-- WebAuthn assertion payload, abstracted to a single payload field: the
claims under verification never inspect the authenticator fields. -/
structure WebAuthnAuth where
  payload : ℕ
  deriving DecidableEq, Repr

/-- The signature slot of a PackedUserOperation: unsigned, or carrying
the passkey-tagged encoding of a WebAuthn assertion as produced by
WalletManager.attachPasskeySignature. -/
inductive UserOpSignature where
  | unsigned
  | passkey (auth : WebAuthnAuth)
  deriving DecidableEq, Repr

/-- PackedUserOperation, reduced to the fields the approval flow
touches: the sender, an abstract call payload and the signature slot. -/
structure PackedUserOperation where
  sender : ℕ
  callData : ℕ
  signature : UserOpSignature
  deriving DecidableEq, Repr

/-- WalletManager.attachPasskeySignature: returns the user operation
with the passkey-tagged WebAuthn assertion as its signature. -/
def attachPasskeySignature (op : PackedUserOperation) (auth : WebAuthnAuth) :
    PackedUserOperation :=
  { op with signature := UserOpSignature.passkey auth }

/-- ProposalStatus from types, named after the status strings. -/
inductive ProposalStatus where
  | pending_approval
  | approved
  | rejected
  | executed
  | expired
  | failed
  deriving DecidableEq, Repr

/-- RebalanceProposal from types. Proposal ids (nanoid strings) are
modelled as naturals; createdAt and expiresAt (Date values) as
millisecond integers. -/
structure RebalanceProposal where
  id : ℕ
  fromProtocol : ProtocolId
  toProtocol : ProtocolId
  amount : ℤ
  fromAPY : ℚ
  toAPY : ℚ
  apyDelta : ℚ
  estimatedGasCost : ℤ
  createdAt : ℤ
  expiresAt : ℤ
  status : ProposalStatus
  deriving DecidableEq, Repr

/-- ApprovalRequest from types, reduced to the fields processApproval
touches (display data and the approval URL are carried but never read by
the transitions). -/
structure ApprovalRequest where
  proposalId : ℕ
  vaultAddress : ℕ
  userOpHash : ℕ
  userOp : PackedUserOperation
  expiresAt : ℤ
  deriving DecidableEq, Repr

/-- ApprovalResponse from types. -/
structure ApprovalResponse where
  proposalId : ℕ
  approved : Bool
  webAuthnAuth : Option WebAuthnAuth
  timestamp : ℤ
  deriving DecidableEq, Repr

/-- The distinct ApprovalFlowError messages thrown by processApproval. -/
inductive ApprovalError where
  | notFound
  | expired
  | rejected
  | missingSignature
  deriving DecidableEq, Repr

/-- The mutable state of an ApprovalFlow instance: the pending approval
requests and the proposals, both keyed by proposal id. -/
structure ApprovalFlowState where
  pendingApprovals : List (ℕ × ApprovalRequest)
  proposals : List (ℕ × RebalanceProposal)
  deriving DecidableEq, Repr

/-- ApprovalFlow.updateProposalStatus: sets the status of the proposal
with the given id when it exists, otherwise changes nothing. -/
def updateProposalStatus (st : ApprovalFlowState) (pid : ℕ) (s : ProposalStatus) :
    ApprovalFlowState :=
  { st with proposals :=
      st.proposals.map (fun q => if q.1 = pid then (q.1, { q.2 with status := s }) else q) }

/-- ApprovalFlow.processApproval. now is the Date constructed at the
expiry check. Returns the post-call state together with the signed user
operation or the thrown error: no pending request is NotFound; an
expired request transitions the proposal to EXPIRED, is deleted and
fails Expired; a response with approved false transitions to REJECTED,
is deleted and fails Rejected; approved without an assertion fails
MissingSignature leaving all state unchanged; otherwise the assertion is
attached, the proposal transitions to APPROVED and the request is
deleted. -/
def processApproval (now : ℤ) (st : ApprovalFlowState) (resp : ApprovalResponse) :
    ApprovalFlowState × Except ApprovalError PackedUserOperation :=
  match alookup resp.proposalId st.pendingApprovals with
  | none => (st, Except.error ApprovalError.notFound)
  | some req =>
    if req.expiresAt < now then
      let st1 := updateProposalStatus st resp.proposalId ProposalStatus.expired
      let st2 := { st1 with pendingApprovals := aerase resp.proposalId st1.pendingApprovals }
      (st2, Except.error ApprovalError.expired)
    else if resp.approved = false then
      let st1 := updateProposalStatus st resp.proposalId ProposalStatus.rejected
      let st2 := { st1 with pendingApprovals := aerase resp.proposalId st1.pendingApprovals }
      (st2, Except.error ApprovalError.rejected)
    else
      match resp.webAuthnAuth with
      | none => (st, Except.error ApprovalError.missingSignature)
      | some auth =>
        let signed := attachPasskeySignature req.userOp auth
        let st1 := updateProposalStatus st resp.proposalId ProposalStatus.approved
        let st2 := { st1 with pendingApprovals := aerase resp.proposalId st1.pendingApprovals }
        (st2, Except.ok signed)

/-- ApprovalFlow.rejectProposal: when a pending request exists for the
id, transitions the proposal to REJECTED and deletes the request;
otherwise changes nothing. -/
def rejectProposal (st : ApprovalFlowState) (pid : ℕ) : ApprovalFlowState :=
  match alookup pid st.pendingApprovals with
  | none => st
  | some _ =>
    let st1 := updateProposalStatus st pid ProposalStatus.rejected
    { st1 with pendingApprovals := aerase pid st1.pendingApprovals }

/-- ApprovalFlow.getPendingApprovals: the pending requests (Map values). -/
def getPendingApprovals (st : ApprovalFlowState) : List ApprovalRequest :=
  st.pendingApprovals.map (fun p => p.2)

/-- Strings of the source are modelled as character lists, so that URL
concatenation is ordinary list append. -/
abbrev JSString : Type := List Char

/-- Serialization of URLSearchParams for URL-safe keys and values (the
nanoid proposal id and the 0x-prefixed hex hash and address need no
percent-encoding): key=value pairs joined by ampersands in insertion
order. -/
def urlParamsToString : List (JSString × JSString) → JSString
  | [] => []
  | [p] => p.1 ++ ['='] ++ p.2
  | p :: rest => p.1 ++ ['='] ++ p.2 ++ ['&'] ++ urlParamsToString rest

/-- ApprovalFlow.generateApprovalUrl: the base URL, a question mark, and
the URLSearchParams built from id, hash and vault in that order. -/
def generateApprovalUrl (baseUrl proposalId userOpHash vaultAddress : JSString) : JSString :=
  baseUrl ++ ['?'] ++ urlParamsToString
    [(['i', 'd'], proposalId),
     (['h', 'a', 's', 'h'], userOpHash),
     (['v', 'a', 'u', 'l', 't'], vaultAddress)]

/-- Modelled from the spec: the approval URL format asserted in the
external-interfaces section, with the target entity id under a
parameter named target. Stated for comparison with generateApprovalUrl,
which is what the code produces. -/
def specApprovalUrl (baseUrl proposalId instructionHash targetEntityId : JSString) : JSString :=
  baseUrl ++ ['?', 'i', 'd', '='] ++ proposalId
    ++ ['&', 'h', 'a', 's', 'h', '='] ++ instructionHash
    ++ ['&', 't', 'a', 'r', 'g', 'e', 't', '='] ++ targetEntityId

/-- The sample list inspected by detectAnomalies: the entries of the
protocol inside the fixed 1-hour velocity window. -/
def velocityEntries (h : RateHistory) (now : ℤ) (pid : ProtocolId) : List RateEntry :=
  h.getEntries now pid (some RATE_VELOCITY_WINDOW_MS)

/-- The adjacent-pair weighted sum of the TWAP formula, stated over
consecutive pairs (via zip with the tail): earlier rate times timestamp
gap. -/
def adjacentWeightedSum (l : List RateEntry) : ℚ :=
  ((l.zip l.tail).map
    (fun p => p.1.apy * (((p.2.timestamp - p.1.timestamp : ℤ) : ℚ)))).sum

/-- The total of the adjacent-pair weights of the TWAP formula. -/
def adjacentTotalWeight (l : List RateEntry) : ℚ :=
  ((l.zip l.tail).map (fun p => (((p.2.timestamp - p.1.timestamp : ℤ) : ℚ)))).sum

/-- A protocol input that getSnapshots serves from the fallback source:
its primary read failed and the DeFiLlama map has a rate for it. -/
def fallbackServedB (dl : Option (List (ProtocolId × ℚ))) (i : ProtocolInput) : Bool :=
  i.primary.isNone && (dlGet dl i.protocolId).isSome

/-- How one protocol input is served by a getSnapshots cycle that
started from history h: a fulfilled primary read is used as is; a failed
primary read is served from the fallback rate map with the re-read
balance defaulting to zero; and when the fallback has no value either,
from the last known history rate with balance zero. -/
def servedFrom (dl : Option (List (ProtocolId × ℚ))) (h : RateHistory)
    (i : ProtocolInput) (s : ProtocolSnapshot) : Prop :=
  s.protocolId = i.protocolId ∧
  (∀ pr, i.primary = some pr → s = ⟨i.protocolId, pr.1, pr.2⟩) ∧
  (i.primary = none → ∀ q, dlGet dl i.protocolId = some q →
    s = ⟨i.protocolId, q, i.balanceRetry.getD 0⟩) ∧
  (i.primary = none → dlGet dl i.protocolId = none →
    s = ⟨i.protocolId, ((h.getLatestRate i.protocolId).map RateEntry.apy).getD 0, 0⟩)

/-- The stored (retained) sample list of a protocol. -/
def storedEntries (h : RateHistory) (pid : ProtocolId) : List RateEntry :=
  (alookup pid h.history).getD []

/-- The pruned list produced inside record before the hard cap is
applied: the previous entries with the new one appended, restricted to
the retention window of the call time. -/
def prunedAfterRecord (h : RateHistory) (now : ℤ) (e : RateEntry) : List RateEntry :=
  ((storedEntries h e.protocolId) ++ [e]).filter
    (fun x => decide (now - h.windowMs ≤ x.timestamp))

/-!
Shared lemmas about the association-list operations and the loop
helpers. These are infrastructure for the claim theorems below.
-/

theorem alookup_aerase_self {κ α : Type} [DecidableEq κ] (k : κ) (l : List (κ × α)) :
    alookup k (aerase k l) = none := by
  induction l with
  | nil => rfl
  | cons p rest ih =>
    by_cases hp : p.1 = k
    · simpa [aerase, hp] using ih
    · simpa [aerase, alookup, hp] using ih

theorem alookup_aerase_ne {κ α : Type} [DecidableEq κ] {k k2 : κ} (l : List (κ × α))
    (h : k2 ≠ k) : alookup k2 (aerase k l) = alookup k2 l := by
  induction l with
  | nil => rfl
  | cons p rest ih =>
    by_cases hp : p.1 = k
    · simpa [aerase, alookup, hp, Ne.symm h] using ih
    · by_cases hq : p.1 = k2
      · simp [aerase, alookup, hp, hq, h]
      · simpa [aerase, alookup, hp, hq] using ih

theorem mem_aerase {κ α : Type} [DecidableEq κ] {x : κ × α} {k : κ} {l : List (κ × α)}
    (h : x ∈ aerase k l) : x ∈ l ∧ x.1 ≠ k := by
  induction l with
  | nil => simp [aerase] at h
  | cons p rest ih =>
    by_cases hp : p.1 = k
    · rw [aerase, if_pos hp] at h
      exact ⟨List.mem_cons_of_mem _ (ih h).1, (ih h).2⟩
    · rw [aerase, if_neg hp] at h
      rcases List.mem_cons.mp h with hx | hx
      · exact ⟨by simp [hx], by rw [hx]; exact hp⟩
      · exact ⟨List.mem_cons_of_mem _ (ih hx).1, (ih hx).2⟩

theorem alookup_aset_self {κ α : Type} [DecidableEq κ] (k : κ) (v : α) (l : List (κ × α)) :
    alookup k (aset k v l) = some v := by
  simp [aset, alookup]

theorem alookup_aset_ne {κ α : Type} [DecidableEq κ] {k k2 : κ} (v : α) (l : List (κ × α))
    (h : k2 ≠ k) : alookup k2 (aset k v l) = alookup k2 l := by
  have : k ≠ k2 := fun hh => h hh.symm
  simp [aset, alookup, this, alookup_aerase_ne l h]

theorem insertByTs_length (e : RateEntry) (l : List RateEntry) :
    (insertByTs e l).length = l.length + 1 := by
  induction l with
  | nil => rfl
  | cons x xs ih =>
    by_cases hx : e.timestamp ≤ x.timestamp
    · simp [insertByTs, hx]
    · simp [insertByTs, hx, ih]

theorem sortByTs_length (l : List RateEntry) : (sortByTs l).length = l.length := by
  induction l with
  | nil => rfl
  | cons x xs ih =>
    show (insertByTs x (sortByTs xs)).length = xs.length + 1
    rw [insertByTs_length, ih]

theorem pairWeights_eq : ∀ l : List RateEntry,
    pairWeights l = (adjacentWeightedSum l, adjacentTotalWeight l)
  | [] => by simp [pairWeights, adjacentWeightedSum, adjacentTotalWeight]
  | [x] => by simp [pairWeights, adjacentWeightedSum, adjacentTotalWeight]
  | x :: y :: rest => by
    have ih := pairWeights_eq (y :: rest)
    simp only [pairWeights, ih, adjacentWeightedSum, adjacentTotalWeight, List.tail_cons,
      List.zip_cons_cons, List.map_cons, List.sum_cons, Prod.mk.injEq]
    constructor <;> ring

theorem alookup_updateStatus_self (l : List (ℕ × RebalanceProposal)) (pid : ℕ)
    (s : ProposalStatus) :
    alookup pid (l.map (fun q => if q.1 = pid then (q.1, { q.2 with status := s }) else q)) =
      (alookup pid l).map (fun p => { p with status := s }) := by
  induction l with
  | nil => rfl
  | cons q rest ih =>
    by_cases hq : q.1 = pid
    · simp [alookup, hq]
    · simp [alookup, hq, ih]

/-- Claim C1: for every vault and snapshot set, compareYields evaluates
its rejection rules in a fixed order with the first match winning: (1)
no snapshot with positive balance gives shouldMove false with reason
no_funds_to_move regardless of rate spread; (2) otherwise, the
fund-holding protocol being the best-rate protocol gives reason
already_in_best_protocol (the already_in_best_source of the spec); (3)
otherwise, a best-minus-current differential in basis points below the
configured minimum (default 50 bps) gives reason
apy_differential_below_threshold; (4) otherwise, an anomaly flag on the
best-rate protocol gives reason target_protocol_anomaly_detected (the
target_source_anomaly_detected of the spec), regardless of any anomaly
on the current protocol and of the size of the differential; (5)
otherwise shouldMove is true with no rejection reason. -/
theorem C1_compareYields_rejection_precedence
    (first : ProtocolSnapshot) (rest : List ProtocolSnapshot) (anomalous : List ProtocolId) :
    MIN_APY_DIFFERENTIAL_BPS = 50 ∧
    ((∀ s ∈ first :: rest, s.balance ≤ 0) →
      (decideRebalance first rest anomalous).shouldRebalance = false ∧
      (decideRebalance first rest anomalous).rejectReason =
        some RejectReason.no_funds_to_move) ∧
    (∀ c, (first :: rest).find? (fun s => decide (0 < s.balance)) = some c →
      ((c.protocolId = (bestSnapshot first rest).protocolId →
        (decideRebalance first rest anomalous).shouldRebalance = false ∧
        (decideRebalance first rest anomalous).rejectReason =
          some RejectReason.already_in_best_protocol) ∧
       (c.protocolId ≠ (bestSnapshot first rest).protocolId →
        jsRound (((bestSnapshot first rest).apyPercent - c.apyPercent) * 10000) <
          MIN_APY_DIFFERENTIAL_BPS →
        (decideRebalance first rest anomalous).shouldRebalance = false ∧
        (decideRebalance first rest anomalous).rejectReason =
          some RejectReason.apy_differential_below_threshold) ∧
       (c.protocolId ≠ (bestSnapshot first rest).protocolId →
        MIN_APY_DIFFERENTIAL_BPS ≤
          jsRound (((bestSnapshot first rest).apyPercent - c.apyPercent) * 10000) →
        (bestSnapshot first rest).protocolId ∈ anomalous →
        (decideRebalance first rest anomalous).shouldRebalance = false ∧
        (decideRebalance first rest anomalous).rejectReason =
          some RejectReason.target_protocol_anomaly_detected) ∧
       (c.protocolId ≠ (bestSnapshot first rest).protocolId →
        MIN_APY_DIFFERENTIAL_BPS ≤
          jsRound (((bestSnapshot first rest).apyPercent - c.apyPercent) * 10000) →
        (bestSnapshot first rest).protocolId ∉ anomalous →
        (decideRebalance first rest anomalous).shouldRebalance = true ∧
        (decideRebalance first rest anomalous).rejectReason = none))) := by
  refine ⟨rfl, ?_, ?_⟩
  · intro hall
    have hfind : (first :: rest).find? (fun s => decide (0 < s.balance)) = none := by
      rw [List.find?_eq_none]
      intro x hx
      simp only [decide_eq_true_eq, not_lt]
      exact hall x hx
    simp [decideRebalance, hfind]
  · intro c hc
    refine ⟨?_, ?_, ?_, ?_⟩
    · intro heq
      simp [decideRebalance, hc, heq]
    · intro hne hlt
      simp [decideRebalance, hc, hne, hlt]
    · intro hne hge hmem
      simp [decideRebalance, hc, hne, not_lt.mpr hge, hmem]
    · intro hne hge hnot
      simp [decideRebalance, hc, hne, not_lt.mpr hge, hnot]

/-- Witness for C1, exercising rule 4 at a concrete input: the vault
holds funds in the 3 percent protocol, the 5.25 percent protocol is best
with a 225 bps differential, and the best protocol carries an anomaly
flag, so the move is blocked with target_protocol_anomaly_detected. -/
theorem C1_compareYields_rejection_precedence_witness :
    (decideRebalance ⟨ProtocolId.aave, 3/100, 1000000⟩ [⟨ProtocolId.compound, 21/400, 0⟩]
        [ProtocolId.compound]).shouldRebalance = false ∧
    (decideRebalance ⟨ProtocolId.aave, 3/100, 1000000⟩ [⟨ProtocolId.compound, 21/400, 0⟩]
        [ProtocolId.compound]).rejectReason =
      some RejectReason.target_protocol_anomaly_detected := by
  have hbest : bestSnapshot ⟨ProtocolId.aave, 3/100, 1000000⟩
      [⟨ProtocolId.compound, 21/400, 0⟩] = ⟨ProtocolId.compound, 21/400, 0⟩ := by
    norm_num [bestSnapshot]
  have h := (C1_compareYields_rejection_precedence ⟨ProtocolId.aave, 3/100, 1000000⟩
    [⟨ProtocolId.compound, 21/400, 0⟩] [ProtocolId.compound]).2.2
      ⟨ProtocolId.aave, 3/100, 1000000⟩ rfl
  exact h.2.2.1
    (by rw [hbest]; decide)
    (by rw [hbest]; norm_num [jsRound, MIN_APY_DIFFERENTIAL_BPS, Int.le_floor])
    (by rw [hbest]; decide)

/-- Claim C2: detectAnomaly with fewer than two samples inside the fixed
1-hour velocity window returns suspicious false with reason
insufficient_data; with two or more samples the velocity check runs
first — the fractional change between the oldest sample rate and the
newest rate (or the explicitly supplied current rate) flags suspicion
above 50 percent, severity high above 100 percent else medium — and
short-circuits; only when velocity did not flag does the deviation check
run — the current rate differing from the 1-hour time-weighted average
by more than 20 percent flags suspicion, severity high above 50 percent
else medium; when neither fires the verdict is not suspicious. -/
theorem C2_detectAnomaly_velocity_then_deviation (h : RateHistory) (now : ℤ)
    (pid : ProtocolId) (currentRate : Option ℚ) :
    ((velocityEntries h now pid).length < 2 →
      h.detectAnomalies now pid currentRate =
        ⟨false, some AnomalyReason.insufficient_data, some Severity.low, none⟩) ∧
    (∀ eFirst eLast,
      2 ≤ (velocityEntries h now pid).length →
      (sortByTs (velocityEntries h now pid)).head? = some eFirst →
      (sortByTs (velocityEntries h now pid)).getLast? = some eLast →
      ((0 < eFirst.apy →
        RATE_VELOCITY_THRESHOLD < |currentRate.getD eLast.apy - eFirst.apy| / eFirst.apy →
        h.detectAnomalies now pid currentRate =
          ⟨true, some AnomalyReason.high_rate_velocity,
            some (if 1 < |currentRate.getD eLast.apy - eFirst.apy| / eFirst.apy
              then Severity.high else Severity.medium),
            some ⟨currentRate.getD eLast.apy, eFirst.apy,
              |currentRate.getD eLast.apy - eFirst.apy| / eFirst.apy,
              RATE_VELOCITY_WINDOW_MS⟩⟩) ∧
       (¬ (0 < eFirst.apy ∧
            RATE_VELOCITY_THRESHOLD < |currentRate.getD eLast.apy - eFirst.apy| / eFirst.apy) →
        (∀ t, h.getTWAP now pid 1 = some t →
          ((0 < t.twap → 1/5 < |currentRate.getD eLast.apy - t.twap| / t.twap →
            h.detectAnomalies now pid currentRate =
              ⟨true, some AnomalyReason.twap_deviation,
                some (if 1/2 < |currentRate.getD eLast.apy - t.twap| / t.twap
                  then Severity.high else Severity.medium),
                some ⟨currentRate.getD eLast.apy, t.twap,
                  |currentRate.getD eLast.apy - t.twap| / t.twap, 60 * 60 * 1000⟩⟩) ∧
           (¬ (0 < t.twap ∧ 1/5 < |currentRate.getD eLast.apy - t.twap| / t.twap) →
            (h.detectAnomalies now pid currentRate).suspicious = false))) ∧
        (h.getTWAP now pid 1 = none →
          (h.detectAnomalies now pid currentRate).suspicious = false)))) := by
  constructor
  · intro hlen
    simp only [velocityEntries] at hlen
    simp only [RateHistory.detectAnomalies]
    rw [if_pos hlen]
  · intro eFirst eLast hlen hhead hlast
    simp only [velocityEntries] at hlen hhead hlast
    have hlen2 : ¬ ((h.getEntries now pid (some RATE_VELOCITY_WINDOW_MS)).length < 2) := by
      omega
    refine ⟨?_, ?_⟩
    · intro hpos hvel
      simp only [RateHistory.detectAnomalies, hlen2, if_false, hhead, hlast,
        Option.map_some', Option.getD_some, ite_false]
      rw [if_pos ⟨hpos, hvel⟩]
    · intro hneg
      refine ⟨?_, ?_⟩
      · intro t ht
        refine ⟨?_, ?_⟩
        · intro htw hdev
          simp only [RateHistory.detectAnomalies, hlen2, if_false, hhead, hlast,
            Option.map_some', Option.getD_some, ite_false, hneg, ht]
          rw [if_pos ⟨htw, hdev⟩]
        · intro hneg2
          simp only [RateHistory.detectAnomalies, hlen2, if_false, hhead, hlast,
            Option.map_some', Option.getD_some, ite_false, hneg, ht, hneg2]
      · intro ht
        simp only [RateHistory.detectAnomalies, hlen2, if_false, hhead, hlast,
          Option.map_some', Option.getD_some, ite_false, hneg, ht]

/-- Witness for C2: two samples half a minute apart going from rate 5 to
rate 10, a 100 percent change, are flagged as high rate velocity with
medium severity (high requires strictly more than 100 percent). -/
theorem C2_detectAnomaly_velocity_then_deviation_witness :
    (((RateHistory.mk [] DEFAULT_HISTORY_WINDOW_MS).record 70000
        ⟨ProtocolId.aave, 5, 70000, RateSource.onchain⟩).record 100000
        ⟨ProtocolId.aave, 10, 100000, RateSource.onchain⟩).detectAnomalies 100000
        ProtocolId.aave none =
      ⟨true, some AnomalyReason.high_rate_velocity, some Severity.medium,
        some ⟨10, 5, 1, RATE_VELOCITY_WINDOW_MS⟩⟩ := by
  have h := (C2_detectAnomaly_velocity_then_deviation
    (((RateHistory.mk [] DEFAULT_HISTORY_WINDOW_MS).record 70000
        ⟨ProtocolId.aave, 5, 70000, RateSource.onchain⟩).record 100000
        ⟨ProtocolId.aave, 10, 100000, RateSource.onchain⟩) 100000 ProtocolId.aave none).2
    ⟨ProtocolId.aave, 5, 70000, RateSource.onchain⟩
    ⟨ProtocolId.aave, 10, 100000, RateSource.onchain⟩
    (by decide) rfl rfl
  refine (h.1 (by norm_num) (by norm_num [RATE_VELOCITY_THRESHOLD])).trans ?_
  norm_num [RateAnomaly.mk.injEq, AnomalyDetails.mk.injEq]

/-- Claim C3: timeWeightedAverage returns null on an empty window;
exactly one sample returns that rate verbatim with sampleCount 1; with
two or more samples (sorted by timestamp) it returns the sum over
adjacent pairs of earlier rate times timestamp gap, plus the most recent
rate times min(now minus its timestamp, 1 hour), divided by the total of
those weights, with sampleCount the number of samples in the window. -/
theorem C3_getTWAP_characterization (h : RateHistory) (now : ℤ) (pid : ProtocolId)
    (wh : ℤ) :
    (h.getEntries now pid (some (wh * (60 * 60 * 1000))) = [] →
      h.getTWAP now pid wh = none) ∧
    (∀ e, h.getEntries now pid (some (wh * (60 * 60 * 1000))) = [e] →
      h.getTWAP now pid wh = some ⟨e.apy, 1, e.timestamp, e.timestamp⟩) ∧
    (∀ e1 e2 rest eFirst eLast,
      h.getEntries now pid (some (wh * (60 * 60 * 1000))) = e1 :: e2 :: rest →
      (sortByTs (e1 :: e2 :: rest)).head? = some eFirst →
      (sortByTs (e1 :: e2 :: rest)).getLast? = some eLast →
      0 < adjacentTotalWeight (sortByTs (e1 :: e2 :: rest)) +
        ((min (now - eLast.timestamp) (60 * 60 * 1000) : ℤ) : ℚ) →
      h.getTWAP now pid wh = some
        ⟨(adjacentWeightedSum (sortByTs (e1 :: e2 :: rest)) +
            eLast.apy * ((min (now - eLast.timestamp) (60 * 60 * 1000) : ℤ) : ℚ)) /
          (adjacentTotalWeight (sortByTs (e1 :: e2 :: rest)) +
            ((min (now - eLast.timestamp) (60 * 60 * 1000) : ℤ) : ℚ)),
         (e1 :: e2 :: rest).length, eFirst.timestamp, eLast.timestamp⟩) := by
  refine ⟨?_, ?_, ?_⟩
  · intro he
    simp only [RateHistory.getTWAP, he]
  · intro e he
    simp only [RateHistory.getTWAP, he]
  · intro e1 e2 rest eFirst eLast he hhead hlast hpos
    simp only [RateHistory.getTWAP, he, pairWeights_eq, hhead, hlast, Option.getD_some]
    rw [if_pos hpos]
    simp [sortByTs_length]

/-- Witness for C3: two samples, rate 3 held for 2 seconds then rate 5
for the final second before now, give a time-weighted average of
(3 times 2000 plus 5 times 1000) over 3000, that is 11 thirds. -/
theorem C3_getTWAP_characterization_witness :
    (((RateHistory.mk [] DEFAULT_HISTORY_WINDOW_MS).record 97000
        ⟨ProtocolId.aave, 3, 97000, RateSource.onchain⟩).record 99000
        ⟨ProtocolId.aave, 5, 99000, RateSource.onchain⟩).getTWAP 100000
        ProtocolId.aave 1 =
      some ⟨11/3, 2, 97000, 99000⟩ := by
  have h := (C3_getTWAP_characterization
    (((RateHistory.mk [] DEFAULT_HISTORY_WINDOW_MS).record 97000
        ⟨ProtocolId.aave, 3, 97000, RateSource.onchain⟩).record 99000
        ⟨ProtocolId.aave, 5, 99000, RateSource.onchain⟩) 100000 ProtocolId.aave 1).2.2
    ⟨ProtocolId.aave, 3, 97000, RateSource.onchain⟩
    ⟨ProtocolId.aave, 5, 99000, RateSource.onchain⟩ []
    ⟨ProtocolId.aave, 3, 97000, RateSource.onchain⟩
    ⟨ProtocolId.aave, 5, 99000, RateSource.onchain⟩
    rfl rfl rfl
    (by norm_num [adjacentTotalWeight, sortByTs, insertByTs])
  refine (h).trans ?_
  norm_num [adjacentWeightedSum, adjacentTotalWeight, sortByTs, insertByTs,
    TWAPResult.mk.injEq]

/-- Claim C4: for every pending approval request whose expiresAt lies in
the past when processApproval is called, the call transitions the
proposal to EXPIRED, removes the request from the pending set and fails
with the expiry error; afterwards getPendingApprovals no longer lists a
request for that proposal id. The hypothesis that every pending entry is
keyed by its own proposal id is the Map invariant maintained by
requestApproval. -/
theorem C4_processApproval_expiry (st : ApprovalFlowState) (resp : ApprovalResponse)
    (now : ℤ) (req : ApprovalRequest) (p : RebalanceProposal)
    (hreq : alookup resp.proposalId st.pendingApprovals = some req)
    (hexp : req.expiresAt < now)
    (hp : alookup resp.proposalId st.proposals = some p)
    (hkeys : ∀ pr ∈ st.pendingApprovals, pr.2.proposalId = pr.1) :
    (processApproval now st resp).2 = Except.error ApprovalError.expired ∧
    alookup resp.proposalId (processApproval now st resp).1.proposals =
      some { p with status := ProposalStatus.expired } ∧
    alookup resp.proposalId (processApproval now st resp).1.pendingApprovals = none ∧
    ∀ r ∈ getPendingApprovals (processApproval now st resp).1,
      r.proposalId ≠ resp.proposalId := by
  have hst : processApproval now st resp =
      ({ pendingApprovals := aerase resp.proposalId st.pendingApprovals,
         proposals := (updateProposalStatus st resp.proposalId ProposalStatus.expired).proposals },
       Except.error ApprovalError.expired) := by
    simp only [processApproval, hreq]
    rw [if_pos hexp]
    rfl
  refine ⟨by rw [hst], ?_, ?_, ?_⟩
  · rw [hst]
    simp only [updateProposalStatus, alookup_updateStatus_self, hp, Option.map_some']
  · rw [hst]
    exact alookup_aerase_self _ _
  · rw [hst]
    intro r hr
    simp only [getPendingApprovals, List.mem_map] at hr
    obtain ⟨pr, hmem, hpr⟩ := hr
    have h2 := mem_aerase hmem
    rw [← hpr]
    rw [hkeys pr h2.1]
    exact h2.2

/-- Witness for C4 at a concrete state: one pending request for proposal
1 that expired at time 10, processed at time 20. -/
theorem C4_processApproval_expiry_witness :
    (processApproval 20
        ⟨[(1, ⟨1, 5, 6, ⟨9, 8, UserOpSignature.unsigned⟩, 10⟩)],
         [(1, ⟨1, ProtocolId.aave, ProtocolId.compound, 100, 3, 5, 2, 7, 0, 10,
            ProposalStatus.pending_approval⟩)]⟩
        ⟨1, true, none, 20⟩).2 = Except.error ApprovalError.expired ∧
    alookup 1 (processApproval 20
        ⟨[(1, ⟨1, 5, 6, ⟨9, 8, UserOpSignature.unsigned⟩, 10⟩)],
         [(1, ⟨1, ProtocolId.aave, ProtocolId.compound, 100, 3, 5, 2, 7, 0, 10,
            ProposalStatus.pending_approval⟩)]⟩
        ⟨1, true, none, 20⟩).1.proposals =
      some ⟨1, ProtocolId.aave, ProtocolId.compound, 100, 3, 5, 2, 7, 0, 10,
        ProposalStatus.expired⟩ ∧
    alookup 1 (processApproval 20
        ⟨[(1, ⟨1, 5, 6, ⟨9, 8, UserOpSignature.unsigned⟩, 10⟩)],
         [(1, ⟨1, ProtocolId.aave, ProtocolId.compound, 100, 3, 5, 2, 7, 0, 10,
            ProposalStatus.pending_approval⟩)]⟩
        ⟨1, true, none, 20⟩).1.pendingApprovals = none ∧
    ∀ r ∈ getPendingApprovals (processApproval 20
        ⟨[(1, ⟨1, 5, 6, ⟨9, 8, UserOpSignature.unsigned⟩, 10⟩)],
         [(1, ⟨1, ProtocolId.aave, ProtocolId.compound, 100, 3, 5, 2, 7, 0, 10,
            ProposalStatus.pending_approval⟩)]⟩
        ⟨1, true, none, 20⟩).1, r.proposalId ≠ 1 := by
  exact C4_processApproval_expiry
    ⟨[(1, ⟨1, 5, 6, ⟨9, 8, UserOpSignature.unsigned⟩, 10⟩)],
     [(1, ⟨1, ProtocolId.aave, ProtocolId.compound, 100, 3, 5, 2, 7, 0, 10,
        ProposalStatus.pending_approval⟩)]⟩
    ⟨1, true, none, 20⟩ 20
    ⟨1, 5, 6, ⟨9, 8, UserOpSignature.unsigned⟩, 10⟩
    ⟨1, ProtocolId.aave, ProtocolId.compound, 100, 3, 5, 2, 7, 0, 10,
      ProposalStatus.pending_approval⟩
    rfl (by decide) rfl (by decide)

/-- Claim C5: a rejection — processApproval receiving approved false on a
pending, unexpired request, or rejectProposal on a pending id —
transitions the proposal to REJECTED and deletes its pending request;
any subsequent processApproval for that id, even approved with a valid
assertion, fails NotFound without touching state; and rejectProposal on
an id with no pending request changes nothing. -/
theorem C5_rejection_terminality :
    (∀ (st : ApprovalFlowState) (resp : ApprovalResponse) (now : ℤ)
       (req : ApprovalRequest) (p : RebalanceProposal),
      alookup resp.proposalId st.pendingApprovals = some req →
      now ≤ req.expiresAt →
      resp.approved = false →
      alookup resp.proposalId st.proposals = some p →
      (processApproval now st resp).2 = Except.error ApprovalError.rejected ∧
      alookup resp.proposalId (processApproval now st resp).1.proposals =
        some { p with status := ProposalStatus.rejected } ∧
      alookup resp.proposalId (processApproval now st resp).1.pendingApprovals = none) ∧
    (∀ (st : ApprovalFlowState) (pid : ℕ) (req : ApprovalRequest) (p : RebalanceProposal),
      alookup pid st.pendingApprovals = some req →
      alookup pid st.proposals = some p →
      alookup pid (rejectProposal st pid).proposals =
        some { p with status := ProposalStatus.rejected } ∧
      alookup pid (rejectProposal st pid).pendingApprovals = none) ∧
    (∀ (st : ApprovalFlowState) (resp : ApprovalResponse) (now : ℤ),
      alookup resp.proposalId st.pendingApprovals = none →
      processApproval now st resp = (st, Except.error ApprovalError.notFound)) ∧
    (∀ (st : ApprovalFlowState) (pid : ℕ),
      alookup pid st.pendingApprovals = none → rejectProposal st pid = st) := by
  refine ⟨?_, ?_, ?_, ?_⟩
  · intro st resp now req p hreq hnotexp happr hp
    have hst : processApproval now st resp =
        ({ pendingApprovals := aerase resp.proposalId st.pendingApprovals,
           proposals :=
             (updateProposalStatus st resp.proposalId ProposalStatus.rejected).proposals },
         Except.error ApprovalError.rejected) := by
      simp only [processApproval, hreq]
      rw [if_neg (not_lt.mpr hnotexp), if_pos happr]
      rfl
    refine ⟨by rw [hst], ?_, ?_⟩
    · rw [hst]
      simp only [updateProposalStatus, alookup_updateStatus_self, hp, Option.map_some']
    · rw [hst]
      exact alookup_aerase_self _ _
  · intro st pid req p hreq hp
    have hst : rejectProposal st pid =
        { pendingApprovals := aerase pid st.pendingApprovals,
          proposals := (updateProposalStatus st pid ProposalStatus.rejected).proposals } := by
      simp only [rejectProposal, hreq]
      rfl
    refine ⟨?_, ?_⟩
    · rw [hst]
      simp only [updateProposalStatus, alookup_updateStatus_self, hp, Option.map_some']
    · rw [hst]
      exact alookup_aerase_self _ _
  · intro st resp now hnone
    simp only [processApproval, hnone]
  · intro st pid hnone
    simp only [rejectProposal, hnone]

/-- Witness for C5: rejecting the pending proposal 1 marks it REJECTED,
empties the pending set, and a retry with approved true and an assertion
fails NotFound. -/
theorem C5_rejection_terminality_witness :
    (processApproval 5
        ⟨[(1, ⟨1, 5, 6, ⟨9, 8, UserOpSignature.unsigned⟩, 10⟩)],
         [(1, ⟨1, ProtocolId.aave, ProtocolId.compound, 100, 3, 5, 2, 7, 0, 10,
            ProposalStatus.pending_approval⟩)]⟩
        ⟨1, false, none, 5⟩).2 = Except.error ApprovalError.rejected ∧
    alookup 1 (processApproval 5
        ⟨[(1, ⟨1, 5, 6, ⟨9, 8, UserOpSignature.unsigned⟩, 10⟩)],
         [(1, ⟨1, ProtocolId.aave, ProtocolId.compound, 100, 3, 5, 2, 7, 0, 10,
            ProposalStatus.pending_approval⟩)]⟩
        ⟨1, false, none, 5⟩).1.pendingApprovals = none ∧
    processApproval 6 (processApproval 5
        ⟨[(1, ⟨1, 5, 6, ⟨9, 8, UserOpSignature.unsigned⟩, 10⟩)],
         [(1, ⟨1, ProtocolId.aave, ProtocolId.compound, 100, 3, 5, 2, 7, 0, 10,
            ProposalStatus.pending_approval⟩)]⟩
        ⟨1, false, none, 5⟩).1 ⟨1, true, some ⟨44⟩, 6⟩ =
      ((processApproval 5
        ⟨[(1, ⟨1, 5, 6, ⟨9, 8, UserOpSignature.unsigned⟩, 10⟩)],
         [(1, ⟨1, ProtocolId.aave, ProtocolId.compound, 100, 3, 5, 2, 7, 0, 10,
            ProposalStatus.pending_approval⟩)]⟩
        ⟨1, false, none, 5⟩).1, Except.error ApprovalError.notFound) := by
  have h := C5_rejection_terminality
  have h1 := h.1
    ⟨[(1, ⟨1, 5, 6, ⟨9, 8, UserOpSignature.unsigned⟩, 10⟩)],
     [(1, ⟨1, ProtocolId.aave, ProtocolId.compound, 100, 3, 5, 2, 7, 0, 10,
        ProposalStatus.pending_approval⟩)]⟩
    ⟨1, false, none, 5⟩ 5
    ⟨1, 5, 6, ⟨9, 8, UserOpSignature.unsigned⟩, 10⟩
    ⟨1, ProtocolId.aave, ProtocolId.compound, 100, 3, 5, 2, 7, 0, 10,
      ProposalStatus.pending_approval⟩
    rfl (by decide) rfl rfl
  exact ⟨h1.1, h1.2.2, h.2.2.1 _ ⟨1, true, some ⟨44⟩, 6⟩ 6 h1.2.2⟩

/-- Claim C10: for every non-expired pending approval request, a
processApproval call with approved true but no WebAuthn assertion fails
with the missing-signature error and leaves all state unchanged — the
request stays pending and the proposal status is untouched — so a later
processApproval with a valid assertion for the same proposal id still
succeeds. -/
theorem C10_missing_signature_preserves_state (st : ApprovalFlowState)
    (resp : ApprovalResponse) (now : ℤ) (req : ApprovalRequest)
    (hreq : alookup resp.proposalId st.pendingApprovals = some req)
    (hnotexp : now ≤ req.expiresAt)
    (happr : resp.approved = true)
    (hauth : resp.webAuthnAuth = none) :
    processApproval now st resp = (st, Except.error ApprovalError.missingSignature) ∧
    alookup resp.proposalId (processApproval now st resp).1.pendingApprovals = some req ∧
    (∀ p, alookup resp.proposalId st.proposals = some p →
      alookup resp.proposalId (processApproval now st resp).1.proposals = some p) ∧
    (∀ (resp2 : ApprovalResponse) (now2 : ℤ) (auth : WebAuthnAuth),
      resp2.proposalId = resp.proposalId →
      resp2.approved = true →
      resp2.webAuthnAuth = some auth →
      now2 ≤ req.expiresAt →
      (processApproval now2 (processApproval now st resp).1 resp2).2 =
        Except.ok (attachPasskeySignature req.userOp auth)) := by
  have hst : processApproval now st resp =
      (st, Except.error ApprovalError.missingSignature) := by
    simp only [processApproval, hreq]
    rw [if_neg (not_lt.mpr hnotexp), if_neg (by simp [happr]), hauth]
  refine ⟨hst, by rw [hst]; exact hreq, by intro p hp; rw [hst]; exact hp, ?_⟩
  intro resp2 now2 auth hid happr2 hauth2 hnotexp2
  rw [hst]
  simp only [processApproval, hid, hreq]
  rw [if_neg (not_lt.mpr hnotexp2), if_neg (by simp [happr2]), hauth2]

/-- Witness for C10: with proposal 1 pending until time 10, an approved
response without an assertion at time 5 fails MissingSignature and
leaves the state intact, and a second attempt with an assertion at time
6 returns the passkey-signed user operation. -/
theorem C10_missing_signature_preserves_state_witness :
    processApproval 5
        ⟨[(1, ⟨1, 5, 6, ⟨9, 8, UserOpSignature.unsigned⟩, 10⟩)],
         [(1, ⟨1, ProtocolId.aave, ProtocolId.compound, 100, 3, 5, 2, 7, 0, 10,
            ProposalStatus.pending_approval⟩)]⟩
        ⟨1, true, none, 5⟩ =
      (⟨[(1, ⟨1, 5, 6, ⟨9, 8, UserOpSignature.unsigned⟩, 10⟩)],
        [(1, ⟨1, ProtocolId.aave, ProtocolId.compound, 100, 3, 5, 2, 7, 0, 10,
           ProposalStatus.pending_approval⟩)]⟩,
       Except.error ApprovalError.missingSignature) ∧
    (processApproval 6 (processApproval 5
        ⟨[(1, ⟨1, 5, 6, ⟨9, 8, UserOpSignature.unsigned⟩, 10⟩)],
         [(1, ⟨1, ProtocolId.aave, ProtocolId.compound, 100, 3, 5, 2, 7, 0, 10,
            ProposalStatus.pending_approval⟩)]⟩
        ⟨1, true, none, 5⟩).1 ⟨1, true, some ⟨44⟩, 6⟩).2 =
      Except.ok (attachPasskeySignature ⟨9, 8, UserOpSignature.unsigned⟩ ⟨44⟩) := by
  have h := C10_missing_signature_preserves_state
    ⟨[(1, ⟨1, 5, 6, ⟨9, 8, UserOpSignature.unsigned⟩, 10⟩)],
     [(1, ⟨1, ProtocolId.aave, ProtocolId.compound, 100, 3, 5, 2, 7, 0, 10,
        ProposalStatus.pending_approval⟩)]⟩
    ⟨1, true, none, 5⟩ 5
    ⟨1, 5, 6, ⟨9, 8, UserOpSignature.unsigned⟩, 10⟩
    rfl (by decide) rfl rfl
  exact ⟨h.1, h.2.2.2 ⟨1, true, some ⟨44⟩, 6⟩ 6 ⟨44⟩ rfl rfl rfl (by decide)⟩

/-- Claim C6, divergence at the failing input: the claim (and spec) says
decryptForSigning fails with Expired whenever now ≥ validUntil, but the
source guard is the strict Date.now() / 1000 > validUntil, so at the
exact boundary — a key with validUntil 100 read at 100000 milliseconds —
the key is decrypted and returned, even though cleanupExpired at the
same instant classifies that very key as expired and removes it (its
guard is validUntil ≤ now), and the vault contract likewise rejects
session keys once block.timestamp ≥ validUntil. -/
theorem C6_expiry_boundary_divergence :
    (decryptForSigning (fun c _ _ => c + 1) ⟨[(7, ⟨7, 11, 12, 13, ⟨100, 50⟩⟩)]⟩ 100000 7 =
      Except.ok ⟨7, 12, ⟨100, 50⟩⟩) ∧
    (cleanupExpiredKeys ⟨[(7, ⟨7, 11, 12, 13, ⟨100, 50⟩⟩)]⟩ 100000).2 = 1 ∧
    (cleanupExpiredKeys ⟨[(7, ⟨7, 11, 12, 13, ⟨100, 50⟩⟩)]⟩ 100000).1.encryptedKeys = [] ∧
    (decryptForSigning (fun c _ _ => c + 1) ⟨[(7, ⟨7, 11, 12, 13, ⟨100, 50⟩⟩)]⟩ 100001 7 =
      Except.error SessionKeyErr.expired) := by
  exact ⟨rfl, rfl, rfl, rfl⟩

/-- Claim C7, counterexample to the claim as stated: record prunes only
the recorded sample's own protocol list, so after recording a compound
sample at time 5000 into a store with a 1000 ms retention window, the
aave list still holds a sample from time 0, far outside the retention
window of now — the for-every-source pruning the claim asserts does not
happen. -/
theorem C7_record_other_sources_not_pruned :
    ∃ x ∈ storedEntries (((RateHistory.mk [] 1000).record 0
        ⟨ProtocolId.aave, 5, 0, RateSource.onchain⟩).record 5000
        ⟨ProtocolId.compound, 6, 5000, RateSource.onchain⟩) ProtocolId.aave,
      x.timestamp < 5000 - 1000 := by
  decide

/-- Claim C7 as amended: after record(sample), the recorded source's
retained list contains only samples inside the retention window of now,
its length never exceeds the hard cap of 1000, the retained samples are
a suffix of the pruned recorded sequence (so when the cap drops
anything, it is the oldest excess samples), nothing is dropped while the
cap is respected, and every other source's list is left untouched (it is
pruned on its own next record, not now). -/
theorem C7_record_bounded_retention (h : RateHistory) (now : ℤ) (e : RateEntry) :
    MAX_ENTRIES_PER_PROTOCOL = 1000 ∧
    (∀ x ∈ storedEntries (h.record now e) e.protocolId, now - h.windowMs ≤ x.timestamp) ∧
    (storedEntries (h.record now e) e.protocolId).length ≤ MAX_ENTRIES_PER_PROTOCOL ∧
    storedEntries (h.record now e) e.protocolId <:+ prunedAfterRecord h now e ∧
    ((prunedAfterRecord h now e).length ≤ MAX_ENTRIES_PER_PROTOCOL →
      storedEntries (h.record now e) e.protocolId = prunedAfterRecord h now e) ∧
    (∀ pid, pid ≠ e.protocolId →
      storedEntries (h.record now e) pid = storedEntries h pid) := by
  have hreduce : storedEntries (h.record now e) e.protocolId =
      (if MAX_ENTRIES_PER_PROTOCOL < (prunedAfterRecord h now e).length
        then (prunedAfterRecord h now e).drop
          ((prunedAfterRecord h now e).length - MAX_ENTRIES_PER_PROTOCOL)
        else prunedAfterRecord h now e) := by
    simp only [storedEntries, RateHistory.record, prunedAfterRecord, alookup_aset_self,
      Option.getD_some]
  refine ⟨rfl, ?_, ?_, ?_, ?_, ?_⟩
  · intro x hx
    rw [hreduce] at hx
    have hx2 : x ∈ prunedAfterRecord h now e := by
      by_cases hc : MAX_ENTRIES_PER_PROTOCOL < (prunedAfterRecord h now e).length
      · rw [if_pos hc] at hx
        exact List.mem_of_mem_drop hx
      · rwa [if_neg hc] at hx
    have := List.of_mem_filter hx2
    simpa using this
  · rw [hreduce]
    by_cases hc : MAX_ENTRIES_PER_PROTOCOL < (prunedAfterRecord h now e).length
    · rw [if_pos hc]
      simp only [List.length_drop]
      omega
    · rw [if_neg hc]
      omega
  · rw [hreduce]
    by_cases hc : MAX_ENTRIES_PER_PROTOCOL < (prunedAfterRecord h now e).length
    · rw [if_pos hc]
      exact List.drop_suffix _ _
    · rw [if_neg hc]
  · intro hle
    rw [hreduce, if_neg (by omega)]
  · intro pid hpid
    simp only [storedEntries, RateHistory.record]
    rw [alookup_aset_ne _ _ hpid]

/-- Witness for C7 at a concrete input: recording a fresh aave sample at
time 5000 into a store already holding one stale and one fresh aave
sample keeps exactly the fresh ones, in order, and leaves the compound
list untouched. -/
theorem C7_record_bounded_retention_witness :
    (∀ x ∈ storedEntries ((RateHistory.mk
        [(ProtocolId.aave, [⟨ProtocolId.aave, 2, 0, RateSource.onchain⟩,
                            ⟨ProtocolId.aave, 3, 4500, RateSource.onchain⟩]),
         (ProtocolId.compound, [⟨ProtocolId.compound, 9, 0, RateSource.onchain⟩])] 1000).record
        5000 ⟨ProtocolId.aave, 5, 5000, RateSource.onchain⟩) ProtocolId.aave,
      5000 - 1000 ≤ x.timestamp) ∧
    storedEntries ((RateHistory.mk
        [(ProtocolId.aave, [⟨ProtocolId.aave, 2, 0, RateSource.onchain⟩,
                            ⟨ProtocolId.aave, 3, 4500, RateSource.onchain⟩]),
         (ProtocolId.compound, [⟨ProtocolId.compound, 9, 0, RateSource.onchain⟩])] 1000).record
        5000 ⟨ProtocolId.aave, 5, 5000, RateSource.onchain⟩) ProtocolId.aave =
      [⟨ProtocolId.aave, 3, 4500, RateSource.onchain⟩,
       ⟨ProtocolId.aave, 5, 5000, RateSource.onchain⟩] ∧
    storedEntries ((RateHistory.mk
        [(ProtocolId.aave, [⟨ProtocolId.aave, 2, 0, RateSource.onchain⟩,
                            ⟨ProtocolId.aave, 3, 4500, RateSource.onchain⟩]),
         (ProtocolId.compound, [⟨ProtocolId.compound, 9, 0, RateSource.onchain⟩])] 1000).record
        5000 ⟨ProtocolId.aave, 5, 5000, RateSource.onchain⟩) ProtocolId.compound =
      [⟨ProtocolId.compound, 9, 0, RateSource.onchain⟩] := by
  have h := C7_record_bounded_retention (RateHistory.mk
        [(ProtocolId.aave, [⟨ProtocolId.aave, 2, 0, RateSource.onchain⟩,
                            ⟨ProtocolId.aave, 3, 4500, RateSource.onchain⟩]),
         (ProtocolId.compound, [⟨ProtocolId.compound, 9, 0, RateSource.onchain⟩])] 1000)
    5000 ⟨ProtocolId.aave, 5, 5000, RateSource.onchain⟩
  refine ⟨h.2.1, ?_, ?_⟩
  · refine (h.2.2.2.2.1 (by decide)).trans (by decide)
  · exact (h.2.2.2.2.2 ProtocolId.compound (by decide)).trans rfl

/-- Claim C9, counterexample to the claim as stated: at concrete inputs
the URL generated by the code differs from the format asserted by the
spec — the third query parameter is named vault, not target. -/
theorem C9_url_parameter_name_differs :
    generateApprovalUrl ['b'] ['p'] ['h'] ['v'] ≠ specApprovalUrl ['b'] ['p'] ['h'] ['v'] := by
  decide

/-- Claim C9 as amended: the generated approval URL has exactly the form
baseUrl?id=proposalId&hash=instructionHash&vault=targetEntityId — the
proposal id under id, the instruction hash under hash, and the target
entity (vault) address under the parameter named vault rather than
target. -/
theorem C9_approval_url_format (baseUrl proposalId userOpHash vaultAddress : JSString) :
    generateApprovalUrl baseUrl proposalId userOpHash vaultAddress =
      baseUrl ++ ['?', 'i', 'd', '='] ++ proposalId
        ++ ['&', 'h', 'a', 's', 'h', '='] ++ userOpHash
        ++ ['&', 'v', 'a', 'u', 'l', 't', '='] ++ vaultAddress := by
  simp [generateApprovalUrl, urlParamsToString]

theorem getLatestRate_record_ne (h : RateHistory) (now : ℤ) (e : RateEntry)
    (pid : ProtocolId) (hne : pid ≠ e.protocolId) :
    (h.record now e).getLatestRate pid = h.getLatestRate pid := by
  simp only [RateHistory.getLatestRate, RateHistory.record]
  rw [alookup_aset_ne _ _ hne]

theorem forall2_imp_mem {α β : Type} {R S : α → β → Prop} :
    ∀ {l1 : List α} {l2 : List β}, List.Forall₂ R l1 l2 →
      (∀ a ∈ l1, ∀ b, R a b → S a b) → List.Forall₂ S l1 l2 := by
  intro l1 l2 hf
  induction hf with
  | nil => intro _; exact List.Forall₂.nil
  | cons hab _ ih =>
    intro himp
    exact List.Forall₂.cons (himp _ (by simp) _ hab)
      (ih (fun a ha b hr => himp a (by simp [ha]) b hr))

theorem getSnapshotsAux_counts (now : ℤ) (dl : Option (List (ProtocolId × ℚ))) :
    ∀ (inputs : List ProtocolInput) (h : RateHistory),
      (getSnapshotsAux now dl inputs h).onchainCount =
        (inputs.filter (fun i => i.primary.isSome)).length ∧
      (getSnapshotsAux now dl inputs h).defillamaCount =
        (inputs.filter (fallbackServedB dl)).length ∧
      (getSnapshotsAux now dl inputs h).snapshots.length = inputs.length
  | [], h => by simp [getSnapshotsAux]
  | inp :: rest, h => by
    cases hpr : inp.primary with
    | some pr =>
      have ih := getSnapshotsAux_counts now dl rest
        (h.record now ⟨inp.protocolId, pr.1, now, RateSource.onchain⟩)
      simp [getSnapshotsAux, hpr, fallbackServedB, List.filter_cons, ih.1, ih.2.1, ih.2.2]
    | none =>
      cases hdl : dlGet dl inp.protocolId with
      | some q =>
        have ih := getSnapshotsAux_counts now dl rest
          (h.record now ⟨inp.protocolId, q, now, RateSource.defillama⟩)
        simp [getSnapshotsAux, hpr, hdl, fallbackServedB, List.filter_cons,
          ih.1, ih.2.1, ih.2.2]
      | none =>
        have ih := getSnapshotsAux_counts now dl rest h
        simp [getSnapshotsAux, hpr, hdl, fallbackServedB, List.filter_cons,
          ih.1, ih.2.1, ih.2.2]

theorem getSnapshotsAux_served (now : ℤ) (dl : Option (List (ProtocolId × ℚ))) :
    ∀ (inputs : List ProtocolInput) (h : RateHistory),
      (inputs.map ProtocolInput.protocolId).Nodup →
      List.Forall₂ (servedFrom dl h) inputs (getSnapshotsAux now dl inputs h).snapshots
  | [], h => by
    intro _
    simp [getSnapshotsAux]
  | inp :: rest, h => by
    intro hnd
    rw [List.map_cons, List.nodup_cons] at hnd
    obtain ⟨hnot, hnd2⟩ := hnd
    have hne : ∀ i ∈ rest, i.protocolId ≠ inp.protocolId := by
      intro i hi heq
      exact hnot (heq ▸ List.mem_map_of_mem ProtocolInput.protocolId hi)
    have hlift : ∀ (h1 : RateHistory) (e : RateEntry), e.protocolId = inp.protocolId →
        List.Forall₂ (servedFrom dl (h1.record now e)) rest
          (getSnapshotsAux now dl rest (h1.record now e)).snapshots →
        List.Forall₂ (servedFrom dl h1) rest
          (getSnapshotsAux now dl rest (h1.record now e)).snapshots := by
      intro h1 e hepid hf
      refine forall2_imp_mem hf ?_
      intro a ha b hr
      obtain ⟨h1b, h2b, h3b, h4b⟩ := hr
      refine ⟨h1b, h2b, h3b, ?_⟩
      intro hnonea hdla
      rw [h4b hnonea hdla]
      rw [getLatestRate_record_ne h1 now e a.protocolId (by rw [hepid]; exact hne a ha)]
    cases hpr : inp.primary with
    | some pr =>
      have ih := getSnapshotsAux_served now dl rest
        (h.record now ⟨inp.protocolId, pr.1, now, RateSource.onchain⟩) hnd2
      have ih2 := hlift h ⟨inp.protocolId, pr.1, now, RateSource.onchain⟩ rfl ih
      simp only [getSnapshotsAux, hpr]
      refine List.Forall₂.cons ?_ ih2
      refine ⟨rfl, ?_, ?_, ?_⟩
      · intro pr2 hpr2
        rw [hpr] at hpr2
        cases hpr2
        rfl
      · intro hno
        rw [hpr] at hno
        cases hno
      · intro hno
        rw [hpr] at hno
        cases hno
    | none =>
      cases hdl : dlGet dl inp.protocolId with
      | some q =>
        have ih := getSnapshotsAux_served now dl rest
          (h.record now ⟨inp.protocolId, q, now, RateSource.defillama⟩) hnd2
        have ih2 := hlift h ⟨inp.protocolId, q, now, RateSource.defillama⟩ rfl ih
        simp only [getSnapshotsAux, hpr, hdl]
        refine List.Forall₂.cons ?_ ih2
        refine ⟨rfl, ?_, ?_, ?_⟩
        · intro pr2 hpr2
          rw [hpr] at hpr2
          cases hpr2
        · intro _ q2 hq2
          rw [hdl] at hq2
          cases hq2
          rfl
        · intro _ hno
          rw [hdl] at hno
          cases hno
      | none =>
        have ih := getSnapshotsAux_served now dl rest h hnd2
        simp only [getSnapshotsAux, hpr, hdl]
        refine List.Forall₂.cons ?_ ih
        refine ⟨rfl, ?_, ?_, ?_⟩
        · intro pr2 hpr2
          rw [hpr] at hpr2
          cases hpr2
        · intro _ q2 hq2
          rw [hdl] at hq2
          cases hq2
        · intro _ _
          rfl

theorem dataSourceOf_cases (oc dc : ℕ) :
    (dataSourceOf oc dc = DataSource.onchain ↔ dc = 0) ∧
    (dataSourceOf oc dc = DataSource.defillama ↔ (dc ≠ 0 ∧ oc = 0)) ∧
    (dataSourceOf oc dc = DataSource.mixed ↔ (dc ≠ 0 ∧ oc ≠ 0)) := by
  by_cases hdc : dc = 0 <;> by_cases hoc : oc = 0 <;> simp [dataSourceOf, hdc, hoc]

/-- Claim C8, counterexample to the dataOrigin clause of the claim as
stated: with a single protocol whose primary read fails and no fallback
data, the snapshot is served from history, yet the reported dataSource
is onchain (primary) — not every source resolved via the primary read,
because sources served from history are counted by neither counter. -/
theorem C8_dataSource_counterexample :
    (getSnapshots 0 (RateHistory.mk [] DEFAULT_HISTORY_WINDOW_MS)
        [⟨ProtocolId.aave, none, none⟩] none).dataSource = DataSource.onchain ∧
    ∃ i ∈ [(⟨ProtocolId.aave, none, none⟩ : ProtocolInput)], i.primary = none := by
  decide

/-- Claim C8 as amended: each source whose primary read fails is served
from the fallback rate source; a source for which the fallback also has
no value is served from the rate history's last known rate with balance
zero; and the reported dataOrigin is primary (onchain) exactly when no
source was served by the fallback, fallback (defillama) exactly when at
least one source was fallback-served and none resolved primary, and
mixed otherwise — sources served from history are counted by neither
counter. Distinct protocol ids reflect the fixed four-protocol list of
the monitor. -/
theorem C8_getSnapshots_fallbacks_and_origin (now : ℤ) (h : RateHistory)
    (inputs : List ProtocolInput) (dl : Option (List (ProtocolId × ℚ)))
    (hnd : (inputs.map ProtocolInput.protocolId).Nodup) :
    List.Forall₂ (servedFrom dl h) inputs (getSnapshots now h inputs dl).snapshots ∧
    ((getSnapshots now h inputs dl).dataSource = DataSource.onchain ↔
      ∀ i ∈ inputs, ¬ (i.primary = none ∧ (dlGet dl i.protocolId).isSome = true)) ∧
    ((getSnapshots now h inputs dl).dataSource = DataSource.defillama ↔
      ((∃ i ∈ inputs, i.primary = none ∧ (dlGet dl i.protocolId).isSome = true) ∧
       ∀ i ∈ inputs, i.primary = none)) ∧
    ((getSnapshots now h inputs dl).dataSource = DataSource.mixed ↔
      ((∃ i ∈ inputs, i.primary = none ∧ (dlGet dl i.protocolId).isSome = true) ∧
       ∃ i ∈ inputs, i.primary ≠ none)) := by
  obtain ⟨hoc, hdc, _⟩ := getSnapshotsAux_counts now dl inputs h
  have hdsrc : (getSnapshots now h inputs dl).dataSource =
      dataSourceOf (inputs.filter (fun i => i.primary.isSome)).length
        (inputs.filter (fallbackServedB dl)).length := by
    simp only [getSnapshots]
    rw [hoc, hdc]
  have hdc0 : ((inputs.filter (fallbackServedB dl)).length = 0) ↔
      ∀ i ∈ inputs, ¬ (i.primary = none ∧ (dlGet dl i.protocolId).isSome = true) := by
    rw [List.length_eq_zero, List.filter_eq_nil_iff]
    constructor
    · intro hall i hi
      have := hall i hi
      simpa [fallbackServedB, Bool.and_eq_true, Option.isNone_iff_eq_none] using this
    · intro hall i hi
      have := hall i hi
      simpa [fallbackServedB, Bool.and_eq_true, Option.isNone_iff_eq_none] using this
  have hdcpos : ((inputs.filter (fallbackServedB dl)).length ≠ 0) ↔
      ∃ i ∈ inputs, i.primary = none ∧ (dlGet dl i.protocolId).isSome = true := by
    rw [ne_eq, hdc0]
    push_neg
    rfl
  have hoc0 : ((inputs.filter (fun i => i.primary.isSome)).length = 0) ↔
      ∀ i ∈ inputs, i.primary = none := by
    rw [List.length_eq_zero, List.filter_eq_nil_iff]
    constructor
    · intro hall i hi
      have := hall i hi
      simpa [Option.not_isSome_iff_eq_none] using this
    · intro hall i hi
      have := hall i hi
      simp [this]
  have hocpos : ((inputs.filter (fun i => i.primary.isSome)).length ≠ 0) ↔
      ∃ i ∈ inputs, i.primary ≠ none := by
    rw [ne_eq, hoc0]
    push_neg
    rfl
  refine ⟨?_, ?_, ?_, ?_⟩
  · have := getSnapshotsAux_served now dl inputs h hnd
    simpa [getSnapshots] using this
  · rw [hdsrc]
    exact (dataSourceOf_cases _ _).1.trans hdc0
  · rw [hdsrc]
    exact ((dataSourceOf_cases _ _).2.1).trans (and_congr hdcpos hoc0)
  · rw [hdsrc]
    exact ((dataSourceOf_cases _ _).2.2).trans (and_congr hdcpos hocpos)

/-- Witness for C8 at a concrete input: aave resolves on-chain, compound
fails its primary read and is served by the DeFiLlama fallback rate 7
with balance zero, and the aggregate dataSource is mixed. -/
theorem C8_getSnapshots_fallbacks_and_origin_witness :
    List.Forall₂ (servedFrom (some [(ProtocolId.compound, 7)])
        (RateHistory.mk [] DEFAULT_HISTORY_WINDOW_MS))
      [⟨ProtocolId.aave, some (5, 100), none⟩, ⟨ProtocolId.compound, none, none⟩]
      (getSnapshots 0 (RateHistory.mk [] DEFAULT_HISTORY_WINDOW_MS)
        [⟨ProtocolId.aave, some (5, 100), none⟩, ⟨ProtocolId.compound, none, none⟩]
        (some [(ProtocolId.compound, 7)])).snapshots ∧
    (getSnapshots 0 (RateHistory.mk [] DEFAULT_HISTORY_WINDOW_MS)
        [⟨ProtocolId.aave, some (5, 100), none⟩, ⟨ProtocolId.compound, none, none⟩]
        (some [(ProtocolId.compound, 7)])).dataSource = DataSource.mixed := by
  have h := C8_getSnapshots_fallbacks_and_origin 0
    (RateHistory.mk [] DEFAULT_HISTORY_WINDOW_MS)
    [⟨ProtocolId.aave, some (5, 100), none⟩, ⟨ProtocolId.compound, none, none⟩]
    (some [(ProtocolId.compound, 7)]) (by decide)
  refine ⟨h.1, h.2.2.2.mpr ⟨⟨⟨ProtocolId.compound, none, none⟩, by decide, rfl, rfl⟩,
    ⟨ProtocolId.aave, some (5, 100), none⟩, by decide, by decide⟩⟩

end AgenticWallet
